import Mathlib

/-!
Shallow embedding of the agent-mst state-machine engine.

Sources embedded here:
- `src/src/claude-state-machine.ts` — the `ClaudeStateMachine` class: constructor,
  `transition`, `executeInstructions`, `goalReached`, `setData`, `getData`.
- `src/src/state-handlers.ts` — `getNextState` (oracle candidate validation) and
  `getDefaultNextState` (fallback resolver).
- `src/src/agent-state-machine.ts` — the static successor table and the body of
  `runStateMachine`'s loop, plus the second (instruction-free) `ClaudeStateMachine.transition`
  variant embedded in that file.
- `src/unnamed/part_000` — the oracle-driven `runStateMachine` loop and the
  customer-support scenario configuration.

Modelling conventions: JS strings are `String`; a JS `Set` kept in insertion order is a
duplicate-free `List String` grown by `insertVisited`; the untyped `data` record is an
association list over a small value type `JSVal`; a JS function that can return
`undefined` returns an `Option`; a thrown JS exception is the `Except.error` case and
carries the machine object as it stands at the throw site (JS exceptions do not roll
back mutations). The instruction list is fixed at construction in the source and never
mutated, so it is passed as an explicit parameter instead of being stored in the
`Machine` structure (which keeps the structure first-order).
-/

namespace AgentMST

/-- Values stored in the machine's untyped `data` record. The scenarios in the source
only ever store booleans and strings. -/
inductive JSVal where
  | bool : Bool → JSVal
  | str : String → JSVal
  deriving DecidableEq, Repr

/-- The mutable state of a `ClaudeStateMachine` object (fields of the class in
`src/src/claude-state-machine.ts`; `contextPrompt`, the logger and the instruction list
are omitted because no modelled operation reads them — instructions are passed
explicitly). -/
structure Machine where
  state : String
  visitedStates : List String
  possibleStates : List String
  goalPredicate : List String → Bool
  data : List (String × JSVal)

/-- The configuration consumed by the constructor (`src/src/types.d.ts`,
`StateMachineConfig`), minus the function-valued instruction list which is passed
separately. -/
structure StateMachineConfig where
  initialState : String
  possibleStates : List String
  goalPredicate : List String → Bool
  contextPrompt : String

/-- The constructor of `ClaudeStateMachine`: it performs plain field assignments and
never validates the configuration (in particular it never checks
`initialState ∈ possibleStates`), so it is a total function. -/
def mkMachine (config : StateMachineConfig) : Machine :=
  { state := config.initialState
    visitedStates := [config.initialState]
    possibleStates := config.possibleStates
    goalPredicate := config.goalPredicate
    data := [] }

/-- JS object-property assignment `this.data[key] = value` on an association list:
replace the first binding of the key, or append a fresh binding. -/
def upsert : List (String × JSVal) → String → JSVal → List (String × JSVal)
  | [], k, v => [(k, v)]
  | (k0, v0) :: rest, k, v =>
    if k0 = k then (k, v) :: rest else (k0, v0) :: upsert rest k v

/-- `setData(key, value)` from `src/src/claude-state-machine.ts`. -/
def Machine.setData (m : Machine) (k : String) (v : JSVal) : Machine :=
  { m with data := upsert m.data k v }

/-- `getData(key)`; a key never set reads as JS `undefined`, i.e. `none`. -/
def Machine.getData (m : Machine) (k : String) : Option JSVal :=
  m.data.lookup k

/-- `goalReached()` evaluates the goal predicate on the visited-state set. -/
def Machine.goalReached (m : Machine) : Bool :=
  m.goalPredicate m.visitedStates

/-- JS `Set.add` on an insertion-ordered duplicate-free list. -/
def insertVisited (vs : List String) (s : String) : List String :=
  if vs.contains s then vs else vs ++ [s]

/-- The synchronous effect of `transition(newState)` (identical in
`src/src/claude-state-machine.ts` lines 23–31 and in the variant embedded in
`src/src/agent-state-machine.ts`): membership test against `possibleStates`, then the
two field updates, or a thrown `Invalid state transition` error. The throw happens
before any mutation, so the error carries the machine unchanged. The
`claude-state-machine.ts` variant additionally fire-and-forgets `executeInstructions()`
after the updates; that extra step is modelled separately by `transitionCSM`. -/
def transition (m : Machine) (newState : String) : Except (String × Machine) Machine :=
  if m.possibleStates.contains newState then
    Except.ok { m with state := newState
                       visitedStates := insertVisited m.visitedStates newState }
  else
    Except.error ("Invalid state transition to " ++ newState, m)

/-- An instruction (condition, action, description). An action may fail (throw); the
error carries the machine as mutated up to the throw site. -/
structure Instruction where
  condition : Machine → Bool
  action : Machine → Except (String × Machine) Machine
  description : String

/-- `executeInstructions()` (`src/src/claude-state-machine.ts` lines 33–39): iterate the
instruction list in declared order; when a condition holds, run the action and await it.
There is no try/catch in the source, so a failing action aborts the remaining
instructions; the result pairs the machine reached with the propagated error, if any. -/
def executeInstructions : List Instruction → Machine → Machine × Option String
  | [], m => (m, none)
  | i :: rest, m =>
    if i.condition m then
      match i.action m with
      | Except.ok m1 => executeInstructions rest m1
      | Except.error (e, mErr) => (mErr, some e)
    else
      executeInstructions rest m

/-- `ClaudeStateMachine.transition` from `src/src/claude-state-machine.ts`: the
synchronous updates followed by the (un-awaited) instruction pass; the result is the
machine once that pass has settled, with any instruction error it surfaced. -/
def transitionCSM (instrs : List Instruction) (m : Machine) (newState : String) :
    Except (String × Machine) (Machine × Option String) :=
  (transition m newState).map (executeInstructions instrs)

/-- `getDefaultNextState` from `src/src/state-handlers.ts` lines 52–55: first
`possibleStates` entry not in `visitedStates`, else `possibleStates[0]`; indexing an
empty array yields JS `undefined`, i.e. `none`. -/
def getDefaultNextState (m : Machine) : Option String :=
  let unvisitedStates := m.possibleStates.filter (fun s => !(m.visitedStates.contains s))
  if unvisitedStates.length > 0 then unvisitedStates.head? else m.possibleStates.head?

/-- `getNextState` from `src/src/state-handlers.ts`, with the oracle's reply passed in:
the candidate is the raw text of the first content block
(`message.content.at(0)!['text']`, line 43 — no trimming, no line splitting), accepted
verbatim when it is a catalog member different from the current state, otherwise
replaced by the fallback. -/
def getNextState (m : Machine) (responseText : String) : Option String :=
  let nextState := responseText
  if m.possibleStates.contains nextState && nextState != m.state then
    some nextState
  else
    getDefaultNextState m

/-- Modelled from the spec: the candidate the spec says the oracle policy consumes —
the response trimmed of surrounding whitespace, then its first line (spec §4.3/§6). The
source has no such extraction; this definition exists only to compare the spec's wording
with `getNextState`. -/
def specCandidate (responseText : String) : String :=
  let trimmed :=
    ((responseText.data.dropWhile Char.isWhitespace).reverse.dropWhile
      Char.isWhitespace).reverse
  String.mk (trimmed.takeWhile (fun c => c != Char.ofNat 10))

/-- The static successor table `stateTransitions` of `runStateMachine` in
`src/src/agent-state-machine.ts`. -/
def stateTransitions : String → Option String := fun s =>
  if s = "ProblemAnalysis" then some "PlanFormulation"
  else if s = "PlanFormulation" then some "PlanExecution"
  else if s = "PlanExecution" then some "ResultEvaluation"
  else if s = "ResultEvaluation" then some "KnowledgeIntegration"
  else if s = "KnowledgeIntegration" then some "ProblemReformulation"
  else if s = "ProblemReformulation" then some "ProblemAnalysis"
  else none

/-- One iteration of the `while` body of `runStateMachine` in
`src/src/agent-state-machine.ts` lines 217–227: await `executeInstructions()` (an
exception propagates and aborts the run), then look up the successor of the *current*
state — whatever the instructions left it as — and transition to it; `false` in the
result means the `else` branch hit (`No transition defined`) and the loop breaks. -/
def loopIteration (instrs : List Instruction) (m : Machine) :
    Except (String × Machine) (Machine × Bool) :=
  match executeInstructions instrs m with
  | (mErr, some e) => Except.error (e, mErr)
  | (m1, none) =>
    match stateTransitions m1.state with
    | some nextState => (transition m1 nextState).map (fun m2 => (m2, true))
    | none => Except.ok (m1, false)

/-- Outcome of a fuel-indexed run of the oracle-driven loop. -/
inductive RunResult where
  | goalReached : Machine → RunResult
  | crashed : String → Machine → RunResult
  | fuelOut : RunResult

/-- The oracle-driven `runStateMachine` loop from `src/unnamed/part_000` lines 36–42,
fuel-indexed: while the goal is not reached, ask the oracle (modelled as a function from
the machine to the response text), validate via `getNextState`, and call the machine's
`transition` (the `claude-state-machine.ts` variant, which runs the instruction pass).
The loop has no iteration bound in the source; `fuelOut` marks fuel exhaustion of the
model, not a source behaviour. A `none` candidate is JS `undefined`, and
`transition(undefined)` throws. -/
def runStateMachine (instrs : List Instruction) (oracle : Machine → String) :
    Nat → Machine → RunResult
  | 0, _ => RunResult.fuelOut
  | fuel + 1, m =>
    if m.goalReached then RunResult.goalReached m
    else
      match getNextState m (oracle m) with
      | none => RunResult.crashed "Invalid state transition to undefined" m
      | some nextState =>
        match transitionCSM instrs m nextState with
        | Except.ok (m1, _) => runStateMachine instrs oracle fuel m1
        | Except.error (e, mErr) => RunResult.crashed e mErr

/-- A mutation step through the machine's public mutators: one successful `transition`
call (from the loop or from inside an instruction action) or one `setData` call. Failed
transitions throw before mutating, so they contribute no step. -/
inductive Step : Machine → Machine → Prop where
  | ofTransition {m m1 : Machine} (s : String) :
      transition m s = Except.ok m1 → Step m m1
  | ofSetData {m : Machine} (k : String) (v : JSVal) :
      Step m (m.setData k v)

/-- Reachability: any finite sequence of `transition`/`setData` calls. -/
abbrev Reachable : Machine → Machine → Prop :=
  Relation.ReflTransGen Step

/-- JS truthiness of a `data` read: `undefined`, `false` and the empty string are falsy
(`!machine.getData(...)` in the scenario conditions). -/
def jsFalsy : Option JSVal → Bool
  | none => true
  | some (JSVal.bool b) => !b
  | some (JSVal.str s) => s == ""

/-- A two-state demo machine used as concrete input in witnesses. -/
def demoM : Machine :=
  { state := "A"
    visitedStates := ["A"]
    possibleStates := ["A", "B"]
    goalPredicate := fun _ => false
    data := [] }

/-- The three-state machine of spec §8 with only the initial state visited. -/
def mABC : Machine :=
  { state := "A"
    visitedStates := ["A"]
    possibleStates := ["A", "B", "C"]
    goalPredicate := fun _ => false
    data := [] }

/-- The spec §8 machine after every state has been visited. -/
def mAllVisited : Machine :=
  { state := "C"
    visitedStates := ["A", "B", "C"]
    possibleStates := ["A", "B", "C"]
    goalPredicate := fun _ => false
    data := [] }

/-- Machine for the oracle-response experiments: `A` current, `A` and `B` visited, `C`
still unvisited. -/
def mC7 : Machine :=
  { state := "A"
    visitedStates := ["A", "B"]
    possibleStates := ["A", "B", "C"]
    goalPredicate := fun _ => false
    data := [] }

/-- A well-formed demo configuration (initial state inside the catalog). -/
def cfgDemo : StateMachineConfig :=
  { initialState := "A"
    possibleStates := ["A", "B"]
    goalPredicate := fun vs => vs.contains "B"
    contextPrompt := "demo" }

/-- A configuration whose initial state is outside the catalog. -/
def cfgBad : StateMachineConfig :=
  { initialState := "X"
    possibleStates := ["A", "B"]
    goalPredicate := fun _ => false
    contextPrompt := "demo" }

/-- The state catalog of the problem-solving machine in `src/src/agent-state-machine.ts`. -/
def probStates : List String :=
  ["ProblemAnalysis", "PlanFormulation", "PlanExecution",
   "ResultEvaluation", "KnowledgeIntegration", "ProblemReformulation"]

/-- The `ProblemReformulation` instruction (`src/src/agent-state-machine.ts` lines
158–170) in the case where the reformulation differs from the current description: its
action calls `machine.transition("ProblemAnalysis")` from inside the instruction pass. -/
def probInstr : Instruction :=
  { condition := fun m => m.state == "ProblemReformulation"
    action := fun m => transition m "ProblemAnalysis"
    description := "Reformulate the problem based on accumulated learnings if necessary" }

/-- The problem-solving machine sitting in `ProblemReformulation`. -/
def demoC3 : Machine :=
  { state := "ProblemReformulation"
    visitedStates := ["ProblemReformulation"]
    possibleStates := probStates
    goalPredicate := fun _ => false
    data := [] }

/-- The machine `executeInstructions [probInstr]` leaves behind when started from
`demoC3`: the instruction has already transitioned to `ProblemAnalysis`. -/
def demoC3After : Machine :=
  { state := "ProblemAnalysis"
    visitedStates := ["ProblemReformulation", "ProblemAnalysis"]
    possibleStates := probStates
    goalPredicate := fun _ => false
    data := [] }

/-- An instruction whose action always throws. -/
def throwingInstr : Instruction :=
  { condition := fun _ => true
    action := fun m => Except.error ("boom", m)
    description := "always fails" }

/-- An instruction that records a marker in the data context when it runs. -/
def markerInstr : Instruction :=
  { condition := fun _ => true
    action := fun m => Except.ok (m.setData "after" (JSVal.bool true))
    description := "set marker after" }

/-- The first customer-support instruction from `src/unnamed/part_000`: during
`Troubleshooting`, set `issueIdentified` once. -/
def csInstr : Instruction :=
  { condition := fun m =>
      m.state == "Troubleshooting" && jsFalsy (m.getData "issueIdentified")
    action := fun m => Except.ok (m.setData "issueIdentified" (JSVal.bool true))
    description := "Identify the specific issue during troubleshooting" }

/-- The customer-support machine from `src/unnamed/part_000` at its initial state. -/
def csDemo : Machine :=
  { state := "Initial Contact"
    visitedStates := ["Initial Contact"]
    possibleStates := ["Initial Contact", "Troubleshooting", "Escalation",
                       "Resolution", "Follow-up"]
    goalPredicate := fun vs => vs.contains "Resolution"
    data := [] }

/-- An oracle that always answers with the machine's current state. -/
def oracleEcho : Machine → String := fun m => m.state

/-- A machine whose goal predicate never becomes true. -/
def demoC8 : Machine :=
  { state := "A"
    visitedStates := ["A"]
    possibleStates := ["A", "B"]
    goalPredicate := fun _ => false
    data := [] }

/-- The run loop exhausts every fuel bound: the modelled `while` loop never exits. -/
def runNeverTerminates (instrs : List Instruction) (oracle : Machine → String)
    (m : Machine) : Prop :=
  ∀ n, runStateMachine instrs oracle n m = RunResult.fuelOut

theorem mem_insertVisited (x s : String) (vs : List String) :
    x ∈ insertVisited vs s ↔ x ∈ vs ∨ x = s := by
  unfold insertVisited
  by_cases h : vs.contains s = true
  · simp only [h, if_true]
    constructor
    · exact Or.inl
    · rintro (hx | hx)
      · exact hx
      · exact hx ▸ List.elem_iff.mp h
  · simp only [h, if_false, Bool.false_eq_true, List.mem_append, List.mem_singleton]

theorem self_mem_insertVisited (s : String) (vs : List String) :
    s ∈ insertVisited vs s :=
  (mem_insertVisited s s vs).mpr (Or.inr rfl)

theorem transition_ok_iff (m m1 : Machine) (s : String) :
    transition m s = Except.ok m1 ↔
      s ∈ m.possibleStates ∧
      m1 = { m with state := s, visitedStates := insertVisited m.visitedStates s } := by
  unfold transition
  by_cases h : m.possibleStates.contains s = true
  · simp only [h, if_true, Except.ok.injEq, List.elem_iff.mp h, true_and]
    exact eq_comm
  · simp only [h, if_false, Bool.false_eq_true]
    constructor
    · intro hfalse
      exact absurd hfalse (by simp)
    · rintro ⟨hmem, -⟩
      exact absurd (List.elem_iff.mpr hmem) h

theorem transition_err_of_not_mem (m : Machine) (s : String)
    (h : s ∉ m.possibleStates) :
    transition m s = Except.error ("Invalid state transition to " ++ s, m) := by
  unfold transition
  have hc : m.possibleStates.contains s ≠ true := fun hc => h (List.elem_iff.mp hc)
  simp only [hc, if_false, Bool.false_eq_true]

theorem Step.possibleStates_eq {m m1 : Machine} (h : Step m m1) :
    m1.possibleStates = m.possibleStates := by
  cases h with
  | ofTransition s heq =>
    obtain ⟨-, rfl⟩ := (transition_ok_iff _ _ _).mp heq
    rfl
  | ofSetData k v => rfl

theorem Step.visited_mono {m m1 : Machine} (h : Step m m1) :
    ∀ x ∈ m.visitedStates, x ∈ m1.visitedStates := by
  cases h with
  | ofTransition s heq =>
    obtain ⟨-, rfl⟩ := (transition_ok_iff _ _ _).mp heq
    intro x hx
    exact (mem_insertVisited x s _).mpr (Or.inl hx)
  | ofSetData k v =>
    intro x hx
    exact hx

theorem Step.state_mem_possible {m m1 : Machine} (h : Step m m1)
    (hm : m.state ∈ m.possibleStates) : m1.state ∈ m1.possibleStates := by
  cases h with
  | ofTransition s heq =>
    obtain ⟨hmem, rfl⟩ := (transition_ok_iff _ _ _).mp heq
    exact hmem
  | ofSetData k v => exact hm

theorem Step.state_mem_visited {m m1 : Machine} (h : Step m m1)
    (hm : m.state ∈ m.visitedStates) : m1.state ∈ m1.visitedStates := by
  cases h with
  | ofTransition s heq =>
    obtain ⟨-, rfl⟩ := (transition_ok_iff _ _ _).mp heq
    exact self_mem_insertVisited s _
  | ofSetData k v => exact hm

theorem reachable_visited_mono {m m1 : Machine} (h : Reachable m m1) :
    ∀ x ∈ m.visitedStates, x ∈ m1.visitedStates := by
  induction h with
  | refl => exact fun x hx => hx
  | tail hsteps hstep ih => exact fun x hx => hstep.visited_mono x (ih x hx)

theorem reachable_state_invariant {m0 m : Machine} (h : Reachable m0 m)
    (h1 : m0.state ∈ m0.possibleStates) (h2 : m0.state ∈ m0.visitedStates) :
    m.state ∈ m.possibleStates ∧ m.state ∈ m.visitedStates := by
  induction h with
  | refl => exact ⟨h1, h2⟩
  | tail hsteps hstep ih =>
    exact ⟨hstep.state_mem_possible ih.1, hstep.state_mem_visited ih.2⟩

theorem getDefaultNextState_eq (m : Machine) :
    getDefaultNextState m =
      match m.possibleStates.filter (fun s => !(m.visitedStates.contains s)) with
      | [] => m.possibleStates.head?
      | s :: _ => some s := by
  simp only [getDefaultNextState]
  cases hf : m.possibleStates.filter (fun s => !(m.visitedStates.contains s)) with
  | nil => simp [hf]
  | cons a t => simp [hf]

theorem getDefaultNextState_mem (m : Machine) (h : m.possibleStates ≠ []) :
    ∃ s, getDefaultNextState m = some s ∧ s ∈ m.possibleStates := by
  rw [getDefaultNextState_eq]
  cases hf : m.possibleStates.filter (fun s => !(m.visitedStates.contains s)) with
  | nil =>
    cases hp : m.possibleStates with
    | nil => exact absurd hp h
    | cons a t => exact ⟨a, rfl, hp ▸ List.mem_cons_self a t⟩
  | cons a t =>
    refine ⟨a, rfl, ?_⟩
    have : a ∈ m.possibleStates.filter (fun s => !(m.visitedStates.contains s)) := by
      rw [hf]; exact List.mem_cons_self a t
    exact (List.mem_filter.mp this).1

/-- C1: `transition(newState)` succeeds iff `newState ∈ possibleStates`; on success it
sets `currentState` to `newState` and adds `newState` to `visitedStates` (losing no
previously visited state and touching no data); on failure it throws the
invalid-transition error carrying the machine unchanged — also through the
`claude-state-machine.ts` variant `transitionCSM`, whose check precedes the instruction
pass (atomicity on error). -/
theorem C1_transition_success_iff (m : Machine) (s : String) :
    ((∃ m1, transition m s = Except.ok m1) ↔ s ∈ m.possibleStates) ∧
    (∀ m1, transition m s = Except.ok m1 →
      m1.state = s ∧ s ∈ m1.visitedStates ∧
      (∀ x ∈ m.visitedStates, x ∈ m1.visitedStates) ∧ m1.data = m.data) ∧
    (s ∉ m.possibleStates →
      transition m s = Except.error ("Invalid state transition to " ++ s, m)) ∧
    (∀ instrs, s ∉ m.possibleStates →
      transitionCSM instrs m s =
        Except.error ("Invalid state transition to " ++ s, m)) := by
  refine ⟨⟨fun ⟨m1, h⟩ => ((transition_ok_iff m m1 s).mp h).1, fun h => ?_⟩,
    fun m1 h => ?_, fun h => transition_err_of_not_mem m s h, fun instrs h => ?_⟩
  · exact ⟨_, (transition_ok_iff m _ s).mpr ⟨h, rfl⟩⟩
  · obtain ⟨hmem, rfl⟩ := (transition_ok_iff m m1 s).mp h
    exact ⟨rfl, self_mem_insertVisited s _,
      fun x hx => (mem_insertVisited x s _).mpr (Or.inl hx), rfl⟩
  · unfold transitionCSM
    rw [transition_err_of_not_mem m s h]
    rfl

/-- C1 witness: on the concrete machine `demoM`, the transition to `B` succeeds with
the expected updates, and the transition to `Z` fails with the machine unchanged. -/
theorem C1_transition_success_iff_witness :
    transition demoM "Z" = Except.error ("Invalid state transition to Z", demoM) ∧
    (∃ m1, transition demoM "B" = Except.ok m1) ∧
    transitionCSM [] demoM "Z" =
      Except.error ("Invalid state transition to Z", demoM) :=
  ⟨(C1_transition_success_iff demoM "Z").2.2.1 (by decide),
   (C1_transition_success_iff demoM "B").1.mpr (by decide),
   (C1_transition_success_iff demoM "Z").2.2.2 [] (by decide)⟩

/-- C2: starting from a configuration whose initial state is in the catalog, every
machine reachable by `transition`/`setData` calls (wherever they are issued from,
including instruction actions) keeps `currentState ∈ possibleStates`, keeps the initial
state and the current state in `visitedStates`, and `visitedStates` never loses a member
along any run. -/
theorem C2_invariants (config : StateMachineConfig)
    (hinit : config.initialState ∈ config.possibleStates)
    (m : Machine) (h : Reachable (mkMachine config) m) :
    m.state ∈ m.possibleStates ∧
    config.initialState ∈ m.visitedStates ∧
    m.state ∈ m.visitedStates ∧
    (∀ m1 m2, Reachable m1 m2 → ∀ x ∈ m1.visitedStates, x ∈ m2.visitedStates) := by
  have hstart : (mkMachine config).state ∈ (mkMachine config).possibleStates := hinit
  have hvis : (mkMachine config).state ∈ (mkMachine config).visitedStates :=
    List.mem_singleton.mpr rfl
  obtain ⟨h1, h2⟩ := reachable_state_invariant h hstart hvis
  refine ⟨h1, ?_, h2, fun m1 m2 hr => reachable_visited_mono hr⟩
  exact reachable_visited_mono h config.initialState (List.mem_singleton.mpr rfl)

/-- C2 witness: the invariants instantiated at `cfgDemo` and the machine reached by one
successful transition to `B`. -/
theorem C2_invariants_witness :
    ((mkMachine cfgDemo).setData "k" (JSVal.bool true)).state ∈
      ((mkMachine cfgDemo).setData "k" (JSVal.bool true)).possibleStates ∧
    cfgDemo.initialState ∈
      ((mkMachine cfgDemo).setData "k" (JSVal.bool true)).visitedStates := by
  have h := C2_invariants cfgDemo (by decide)
    ((mkMachine cfgDemo).setData "k" (JSVal.bool true))
    (Relation.ReflTransGen.single (Step.ofSetData "k" (JSVal.bool true)))
  exact ⟨h.1, h.2.1⟩

/-- C5: with a non-empty catalog, `getDefaultNextState` returns the first entry of
`possibleStates`, in declared order, that is not in `visitedStates` (the `find?`
characterisation), and `possibleStates[0]` when every entry has been visited. -/
theorem C5_getDefaultNextState_spec (m : Machine) (h : m.possibleStates ≠ []) :
    (∀ s, m.possibleStates.find? (fun x => !(m.visitedStates.contains x)) = some s →
      getDefaultNextState m = some s) ∧
    ((∀ s ∈ m.possibleStates, s ∈ m.visitedStates) →
      getDefaultNextState m = m.possibleStates.head?) := by
  constructor
  · intro s hs
    rw [getDefaultNextState_eq]
    rw [← List.filter_head?] at hs
    cases hf : m.possibleStates.filter (fun x => !(m.visitedStates.contains x)) with
    | nil => rw [hf] at hs; cases hs
    | cons a t => rw [hf] at hs; simpa using hs
  · intro hall
    rw [getDefaultNextState_eq]
    have hnil : m.possibleStates.filter (fun x => !(m.visitedStates.contains x)) = [] := by
      rw [List.filter_eq_nil_iff]
      intro a ha
      simpa using hall a ha
    rw [hnil]

/-- C5 witness: with `possibleStates = [A,B,C]` and `visitedStates = {A}` the fallback
returns `B`; with everything visited it returns `A` (`possibleStates[0]`). -/
theorem C5_getDefaultNextState_spec_witness :
    getDefaultNextState mABC = some "B" ∧
    getDefaultNextState mAllVisited = some "A" :=
  ⟨(C5_getDefaultNextState_spec mABC (by decide)).1 "B" (by decide),
   (C5_getDefaultNextState_spec mAllVisited (by decide)).2 (by decide)⟩

theorem getNextState_of_valid (m : Machine) (cand : String)
    (hmem : cand ∈ m.possibleStates) (hne : cand ≠ m.state) :
    getNextState m cand = some cand := by
  have h1 : m.possibleStates.contains cand = true := List.elem_iff.mpr hmem
  have h2 : (cand != m.state) = true := bne_iff_ne.mpr hne
  show (if m.possibleStates.contains cand && (cand != m.state) then some cand
        else getDefaultNextState m) = some cand
  rw [h1, h2]
  rfl

theorem getNextState_of_invalid (m : Machine) (cand : String)
    (hbad : cand ∉ m.possibleStates ∨ cand = m.state) :
    getNextState m cand = getDefaultNextState m := by
  show (if m.possibleStates.contains cand && (cand != m.state) then some cand
        else getDefaultNextState m) = getDefaultNextState m
  rcases hbad with hbad | hbad
  · have h1 : m.possibleStates.contains cand = false :=
      Bool.eq_false_iff.mpr (fun hc => hbad (List.elem_iff.mp hc))
    rw [h1, Bool.false_and]
    rfl
  · subst hbad
    rw [bne_self_eq_false, Bool.and_false]
    rfl

/-- C6: `getNextState` returns the oracle's candidate itself when the candidate is a
catalog member different from `currentState`, and the result of `getDefaultNextState`
otherwise (candidate out of catalog or equal to the current state; an empty candidate
falls under the out-of-catalog case). -/
theorem C6_getNextState_validation (m : Machine) (cand : String) :
    (cand ∈ m.possibleStates ∧ cand ≠ m.state → getNextState m cand = some cand) ∧
    (cand ∉ m.possibleStates ∨ cand = m.state →
      getNextState m cand = getDefaultNextState m) :=
  ⟨fun h => getNextState_of_valid m cand h.1 h.2,
   fun h => getNextState_of_invalid m cand h⟩

/-- C6 witness: the spec §8 table on `mABC` — candidate `B` accepted, candidate `A`
(equal to current) and candidate `Z` (out of catalog) fall back, and the empty candidate
falls back. -/
theorem C6_getNextState_validation_witness :
    getNextState mABC "B" = some "B" ∧
    getNextState mABC "A" = getDefaultNextState mABC ∧
    getNextState mABC "Z" = getDefaultNextState mABC ∧
    getNextState mABC "" = getDefaultNextState mABC :=
  ⟨(C6_getNextState_validation mABC "B").1 (by decide),
   (C6_getNextState_validation mABC "A").2 (Or.inr rfl),
   (C6_getNextState_validation mABC "Z").2 (Or.inl (by decide)),
   (C6_getNextState_validation mABC "").2 (Or.inl (by decide))⟩

/-- C9: the constructor validates nothing and is total: for every configuration the
machine starts at `initialState` with `visitedStates = {initialState}`; the invariant
`currentState ∈ possibleStates` holds at construction exactly when
`initialState ∈ possibleStates`, and with an out-of-catalog initial state the machine
starts outside the catalog with that state in `visitedStates`. -/
theorem C9_constructor_unchecked (config : StateMachineConfig) :
    (mkMachine config).state = config.initialState ∧
    (mkMachine config).visitedStates = [config.initialState] ∧
    (mkMachine config).state ∈ (mkMachine config).visitedStates ∧
    ((mkMachine config).state ∈ (mkMachine config).possibleStates ↔
      config.initialState ∈ config.possibleStates) ∧
    (config.initialState ∉ config.possibleStates →
      (mkMachine config).state ∉ (mkMachine config).possibleStates ∧
      (mkMachine config).state ∈ (mkMachine config).visitedStates) :=
  ⟨rfl, rfl, List.mem_singleton.mpr rfl, Iff.rfl,
   fun h => ⟨h, List.mem_singleton.mpr rfl⟩⟩

/-- C9 witness: constructing from `cfgBad` (initial state `X`, catalog `[A,B]`)
succeeds, and the machine starts outside the catalog with `X` visited. -/
theorem C9_constructor_unchecked_witness :
    (mkMachine cfgBad).state ∉ (mkMachine cfgBad).possibleStates ∧
    (mkMachine cfgBad).state ∈ (mkMachine cfgBad).visitedStates :=
  (C9_constructor_unchecked cfgBad).2.2.2.2 (by decide)

/-- C10: the two `transition` implementations are not equivalent. On the
customer-support machine, the `claude-state-machine.ts` variant (`transitionCSM`) runs
the instruction pass after the state change and so records `issueIdentified` in the data
context, while the variant embedded in `agent-state-machine.ts` (`transition`) performs
the same state change but leaves the data context empty. -/
theorem C10_transition_variants_differ :
    (match transitionCSM [csInstr] csDemo "Troubleshooting" with
     | Except.ok (m, _) => m.getData "issueIdentified"
     | Except.error _ => none) = some (JSVal.bool true) ∧
    (match transition csDemo "Troubleshooting" with
     | Except.ok m => m.getData "issueIdentified"
     | Except.error _ => none) = none ∧
    (match transition csDemo "Troubleshooting" with
     | Except.ok m => some m.state
     | Except.error _ => none) = some "Troubleshooting" :=
  ⟨rfl, rfl, rfl⟩

/-- C3 counterexample: starting one loop iteration in `ProblemReformulation`, the
reformulation instruction transitions the machine to `ProblemAnalysis` during
`executeInstructions`, yet the loop still issues its own transition — it looks up the
successor of the instruction-updated state and moves on to `PlanFormulation`. The
iteration therefore contains a second, loop-computed transition instead of skipping it. -/
theorem C3_counterexample :
    executeInstructions [probInstr] demoC3 = (demoC3After, none) ∧
    demoC3After.state ≠ demoC3.state ∧
    loopIteration [probInstr] demoC3 =
      Except.ok ({ demoC3After with
                     state := "PlanFormulation",
                     visitedStates := demoC3After.visitedStates ++ ["PlanFormulation"] },
                 true) ∧
    "PlanFormulation" ≠ demoC3After.state := by
  refine ⟨rfl, by decide, ?_, by decide⟩
  rfl

/-- C3 amended: the loop performs no detection of action-triggered transitions. After
`executeInstructions` finishes without an error, the loop unconditionally looks up the
successor of the (possibly instruction-updated) current state in the static table and
performs its own `transition` to it — even in iterations where an instruction already
transitioned. -/
theorem C3_loop_issues_own_transition (instrs : List Instruction)
    (m m1 : Machine) (s : String)
    (hexec : executeInstructions instrs m = (m1, none))
    (htab : stateTransitions m1.state = some s)
    (hmem : s ∈ m1.possibleStates) :
    loopIteration instrs m =
      Except.ok ({ m1 with state := s, visitedStates := insertVisited m1.visitedStates s }, true) := by
  unfold loopIteration
  rw [hexec]
  show (match stateTransitions m1.state with
        | some nextState => (transition m1 nextState).map (fun m2 => (m2, true))
        | none => Except.ok (m1, false)) = _
  rw [htab]
  show (transition m1 s).map (fun m2 => (m2, true)) = _
  rw [(transition_ok_iff m1 _ s).mpr ⟨hmem, rfl⟩]
  rfl

/-- C3 witness for the amended claim: the general statement applied to the concrete
reformulation iteration. -/
theorem C3_loop_issues_own_transition_witness :
    loopIteration [probInstr] demoC3 =
      Except.ok ({ demoC3After with state := "PlanFormulation", visitedStates := insertVisited demoC3After.visitedStates "PlanFormulation" }, true) :=
  C3_loop_issues_own_transition [probInstr] demoC3 demoC3After "PlanFormulation"
    rfl rfl (by decide)

/-- C4 counterexample: with a first instruction whose action throws and a second
instruction that would record a marker, `executeInstructions` stops at the failure: the
error propagates (there is no try/catch in the source), the second instruction never
runs, its marker is absent, and the surrounding loop iteration aborts with the error
instead of continuing. -/
theorem C4_counterexample :
    executeInstructions [throwingInstr, markerInstr] demoM = (demoM, some "boom") ∧
    (executeInstructions [throwingInstr, markerInstr] demoM).1.getData "after" = none ∧
    loopIteration [throwingInstr, markerInstr] demoM =
      Except.error ("boom", demoM) := by
  refine ⟨rfl, rfl, ?_⟩
  rfl

/-- C4 amended: a failure raised by an instruction's action is not caught:
`executeInstructions` stops at the first failing action, the remaining instructions do
not run, and the propagated error carries the machine reflecting exactly the work
completed before the failure. -/
theorem C4_instruction_error_propagates (pre : List Instruction) (i : Instruction)
    (rest : List Instruction) (m m1 mErr : Machine) (e : String)
    (hpre : executeInstructions pre m = (m1, none))
    (hcond : i.condition m1 = true)
    (hact : i.action m1 = Except.error (e, mErr)) :
    executeInstructions (pre ++ i :: rest) m = (mErr, some e) := by
  induction pre generalizing m with
  | nil =>
    injection hpre with h1 h2
    subst h1
    simp [executeInstructions, hcond, hact]
  | cons j pre ih =>
    by_cases hj : j.condition m = true
    · cases haj : j.action m with
      | ok m2 =>
        have hpre2 : executeInstructions pre m2 = (m1, none) := by
          simpa [executeInstructions, hj, haj] using hpre
        have := ih m2 hpre2
        simpa [executeInstructions, hj, haj] using this
      | error p =>
        exfalso
        have : (p.2, some p.1) = (m1, none) := by
          simpa [executeInstructions, hj, haj] using hpre
        injection this with h1 h2
        cases h2
    · have hpre2 : executeInstructions pre m = (m1, none) := by
        simpa [executeInstructions, hj] using hpre
      have := ih m hpre2
      simpa [executeInstructions, hj] using this

/-- C4 witness for the amended claim: applied with no preceding instructions, the
throwing instruction, and the marker instruction still pending. -/
theorem C4_instruction_error_propagates_witness :
    executeInstructions ([] ++ throwingInstr :: [markerInstr]) demoM =
      (demoM, some "boom") :=
  C4_instruction_error_propagates [] throwingInstr [markerInstr] demoM demoM demoM
    "boom" rfl rfl rfl

/-- C7 counterexample: the response `"B\nbecause it fits"` has first trimmed line `B`,
a legal state different from the current one, so per the claim it would be accepted as
`B`; but `getNextState` uses the raw text as the candidate, validation fails, and the
fallback returns `C` instead. -/
theorem C7_counterexample :
    specCandidate "B\nbecause it fits" = "B" ∧
    "B" ∈ mC7.possibleStates ∧
    "B" ≠ mC7.state ∧
    getNextState mC7 "B\nbecause it fits" ≠ some "B" ∧
    getNextState mC7 "B\nbecause it fits" = some "C" := by
  refine ⟨?_, by decide, by decide, ?_, ?_⟩ <;> decide

/-- C7 amended: the src oracle policy consumes the first content block's text verbatim —
no whitespace trimming and no first-line extraction. A response that is not itself a
catalog label is always sent to the fallback, even when its trimmed first line names a
legal state different from the current one. -/
theorem C7_raw_response_consumed (m : Machine) (raw : String)
    (h1 : raw ∉ m.possibleStates)
    (h2 : specCandidate raw ∈ m.possibleStates)
    (h3 : specCandidate raw ≠ m.state) :
    getNextState m raw = getDefaultNextState m :=
  getNextState_of_invalid m raw (Or.inl h1)

/-- C7 witness for the amended claim: the multi-line response whose first trimmed line
is the legal state `B` is nevertheless resolved by the fallback. -/
theorem C7_raw_response_consumed_witness :
    getNextState mC7 "B\nbecause it fits" = getDefaultNextState mC7 :=
  C7_raw_response_consumed mC7 "B\nbecause it fits" (by decide) (by decide) (by decide)

theorem runStateMachine_echo_fuelOut (n : Nat) (m : Machine)
    (hgoal : ∀ vs, m.goalPredicate vs = false)
    (hps : m.possibleStates ≠ []) :
    runStateMachine [] oracleEcho n m = RunResult.fuelOut := by
  induction n generalizing m with
  | zero => rfl
  | succ n ih =>
    obtain ⟨s, hs, hmem⟩ := getDefaultNextState_mem m hps
    have hg : m.goalReached = false := hgoal m.visitedStates
    have hnext : getNextState m (oracleEcho m) = some s := by
      show getNextState m m.state = some s
      rw [getNextState_of_invalid m m.state (Or.inr rfl), hs]
    have hcsm : transitionCSM [] m s = Except.ok
        ({ m with state := s, visitedStates := insertVisited m.visitedStates s },
         none) := by
      unfold transitionCSM
      rw [(transition_ok_iff m _ s).mpr ⟨hmem, rfl⟩]
      rfl
    show (if m.goalReached then RunResult.goalReached m
          else
            match getNextState m (oracleEcho m) with
            | none => RunResult.crashed "Invalid state transition to undefined" m
            | some nextState =>
              match transitionCSM [] m nextState with
              | Except.ok (m1, _) => runStateMachine [] oracleEcho n m1
              | Except.error (e, mErr) => RunResult.crashed e mErr) = RunResult.fuelOut
    rw [hg, hnext]
    show (match transitionCSM [] m s with
          | Except.ok (m1, _) => runStateMachine [] oracleEcho n m1
          | Except.error (e, mErr) => RunResult.crashed e mErr) = RunResult.fuelOut
    rw [hcsm]
    exact ih _ (fun vs => hgoal vs) hps

/-- C8 counterexample: the machine `demoC8`, with an oracle that always answers the
current state and a goal predicate that never becomes true, exhausts every fuel bound of
the modelled loop — the source run loop has no iteration cap and never reports any
`Faulted`/`IterationCapExceeded` outcome (no such outcome even exists in the code). -/
theorem C8_counterexample : runNeverTerminates [] oracleEcho demoC8 :=
  fun n => runStateMachine_echo_fuelOut n demoC8 (fun _ => rfl) (by decide)

/-- C8 amended: the run loop is not bounded by any iteration cap. For every machine
whose goal predicate never holds and whose catalog is non-empty, the loop driven by a
current-state-echoing oracle runs out of any fuel bound instead of terminating: the
spec's `Faulted`/`IterationCapExceeded` hardening is absent from the source. -/
theorem C8_no_iteration_cap (n : Nat) (m : Machine)
    (hgoal : ∀ vs, m.goalPredicate vs = false)
    (hps : m.possibleStates ≠ []) :
    runStateMachine [] oracleEcho n m = RunResult.fuelOut :=
  runStateMachine_echo_fuelOut n m hgoal hps

/-- C8 witness for the amended claim: five iterations of fuel exhausted on `demoC8`. -/
theorem C8_no_iteration_cap_witness :
    runStateMachine [] oracleEcho 5 demoC8 = RunResult.fuelOut :=
  C8_no_iteration_cap 5 demoC8 (fun _ => rfl) (by decide)

end AgentMST
